import Mathlib

/-!
A verification development for `midiplayer.py`, a menu-driven MIDI/MP3 playback
appliance.  The Python module is shallowly embedded: its pure helpers become
Lean functions, its module-level globals become the fields of an explicit
`PlayerState` record threaded through the operations, and the host environment
(enumerated MIDI output ports, the filesystem, parsed MIDI files) is passed in
as an explicit `Env` value.  Machine integers do not overflow in the source
(Python has arbitrary-precision integers), so ticks are `Nat` and channel
values are `Int`; the float arithmetic of `mido.tick2second` is modelled over
`ℚ`, which is exact on all the values the program computes with.
-/

namespace MidiPlayer

/-- Number of tracks shown in the setup menu (`NUM_TRACKS = 16` in the source). -/
def NUM_TRACKS : Nat := 16

/-- Number of MIDI output channels (`NUM_OUT = 16` in the source). -/
def NUM_OUT : Nat := 16

/-- GPIO pin of the Confirm/Enter button (`BTN_SELECT = 5`). -/
def BTN_SELECT : Nat := 5

/-- GPIO pin of the Reset button (`BTN_RESET = 6`). -/
def BTN_RESET : Nat := 6

/-- GPIO pin of the increase-index button (`BTN_DOWN = 24`). -/
def BTN_DOWN : Nat := 24

/-- GPIO pin of the decrease-index button (`BTN_UP = 16`). -/
def BTN_UP : Nat := 16

/-- The three top-level menu modes (`MODE_LIST` in the source). -/
def MODE_LIST : List String := ["MIDI FILE", "AUDIO FILE", "SETUP"]

/-- A MIDI message as surfaced by `mido`: `time` is the track-relative
delta-tick stored in the file, `is_meta` tells whether the message is a meta
message, and `kind` stands for the remaining payload (status byte, data
bytes), which the player never inspects beyond copying it. -/
structure MidiMsg where
  time : Nat
  is_meta : Bool
  kind : Nat
  deriving DecidableEq, Repr

/-- One element of the `events` list built by `play_midi_file`:
`(abs_tick, track_idx, msg)`. -/
abbrev Entry := Nat × Nat × MidiMsg

/-- A parsed MIDI file as `mido.MidiFile` presents it: the per-track message
lists and the `ticks_per_beat` header field. -/
structure MidiFile where
  tracks : List (List MidiMsg)
  ticks_per_beat : Nat
  deriving Repr

/-- The inner loop of `play_midi_file` (lines 164-168) for one track: keep a
running `abs_tick` accumulator, add each message's delta-tick, and append
`(abs_tick, track_idx, msg)` for every non-meta message.  Meta messages are
skipped but their delta-ticks still advance the accumulator. -/
def trackEvents (track_idx : Nat) (abs_tick : Nat) : List MidiMsg → List Entry
  | [] => []
  | msg :: rest =>
    let t := abs_tick + msg.time
    if msg.is_meta then trackEvents track_idx t rest
    else (t, track_idx, msg) :: trackEvents track_idx t rest

/-- The full `events` list of `play_midi_file` before sorting: the per-track
lists in track-index order (`enumerate(mid.tracks)`), concatenated. -/
def buildEvents (tracks : List (List MidiMsg)) : List Entry :=
  (tracks.enum.map fun p => trackEvents p.1 0 p.2).flatten

/-- The comparison used by `events.sort(key=lambda x: x[0])`: compare by
absolute tick only. -/
def entryLE (a b : Entry) : Bool := a.1 ≤ b.1

/-- `events.sort(key=lambda x: x[0])` (line 169).  Python's `list.sort` is a
stable sort; `List.mergeSort` is the stable sort of the Lean library, so the
two agree on every input. -/
def sortEvents (events : List Entry) : List Entry := events.mergeSort entryLE

/-- The timeline `playback_events` produced by `play_midi_file` for a given
track list: build the per-track concatenation, then stable-sort it by
absolute tick. -/
def playMidiTimeline (tracks : List (List MidiMsg)) : List Entry :=
  sortEvents (buildEvents tracks)

/-- `mido.tick2second(tick, ticks_per_beat, tempo)`:
`scale = tempo * 1e-6 / ticks_per_beat; return tick * scale`, modelled over
`ℚ`. -/
def tick2second (tick : Nat) (ticks_per_beat : Nat) (tempo : Nat) : ℚ :=
  (tick : ℚ) * ((tempo : ℚ) / 1000000 / (ticks_per_beat : ℚ))

/-- `events[-1][0] if events else 0` (line 172): the absolute tick of the last
entry of the (already sorted) event list, `0` when the list is empty. -/
def lastTick (events : List Entry) : Nat :=
  match events.getLast? with
  | some e => e.1
  | none => 0

/-- The `playback_duration` computed by `play_midi_file` (line 173):
`mido.tick2second(max_tick, tpq, 500000)` with the fixed default tempo of
500000 microseconds per quarter note, tempo-change meta messages
notwithstanding. -/
def playback_duration_of (tracks : List (List MidiMsg)) (tpq : Nat) : ℚ :=
  tick2second (lastTick (playMidiTimeline tracks)) tpq 500000

/-- The total delta-tick of a message list (used to state the accumulator
correctness property). -/
def sumDeltas (msgs : List MidiMsg) : Nat := (msgs.map MidiMsg.time).sum

/-- The spec side of the delta-accumulation claim, written from its words:
index each event of a track with the sum of the delta-ticks of all the
track's events up to and including it in original file order, keep the
non-meta ones, and tag each with the track index.  To be compared with
`trackEvents`, the accumulator loop of the source. -/
def specTrackEntries (t : Nat) (msgs : List MidiMsg) : List Entry :=
  (msgs.enum.filter fun p => !p.2.is_meta).map
    fun p => (sumDeltas (msgs.take (p.1 + 1)), t, p.2)

/-- Python `dict.get(k, d)` on a dictionary modelled as an association list:
the value of the first matching key, or the default `d`. -/
def dictGet (m : List (Int × Int)) (k d : Int) : Int := (m.lookup k).getD d

/-- Python `dict[k] = v`: replace the value of an existing key in place,
otherwise append the new binding at the end (insertion order). -/
def dictSet : List (Int × Int) → Int → Int → List (Int × Int)
  | [], k, v => [(k, v)]
  | (k', v') :: rest, k, v =>
    if k' == k then (k, v) :: rest else (k', v') :: dictSet rest k v

/-- The channel routing of `_midi_playback_worker` (line 141):
`ch = track_map.get(track_idx, track_idx) % NUM_OUT`.  Python's `%` on a
positive modulus agrees with `Int.emod`. -/
def route (track_idx : Int) (m : List (Int × Int)) : Int :=
  dictGet m track_idx track_idx % (NUM_OUT : Int)

/-- A decimal string key of the persisted JSON object, as written by
`json.dump` for an integer dictionary key: an optional leading minus sign and
the base-10 digits of the absolute value (stored little-endian, the way
`Nat.digits` produces them). -/
structure StrKey where
  neg : Bool
  digs : List Nat
  deriving DecidableEq, Repr

/-- `str(i)` for an integer dictionary key, as performed by `json.dump`. -/
def encodeKey (i : Int) : StrKey := ⟨decide (i < 0), Nat.digits 10 i.natAbs⟩

/-- `int(k)` on a decimal string key, as performed by `load_mapping`. -/
def decodeKey (k : StrKey) : Int :=
  if k.neg then -((Nat.ofDigits 10 k.digs : ℕ) : Int) else ((Nat.ofDigits 10 k.digs : ℕ) : Int)

/-- The possible states of the persisted map file `MAP_FILE` as `load_mapping`
distinguishes them: the file does not exist, it exists but `json.load` or the
`int` conversions raise, or it parses to a JSON object with decimal string
keys and integer values. -/
inductive MapFile where
  | missing
  | malformed
  | parsed (entries : List (StrKey × Int))
  deriving DecidableEq

/-- The identity fallback map `{i: i for i in range(NUM_TRACKS)}`. -/
def identityMap : List (Int × Int) :=
  (List.range NUM_TRACKS).map fun i => ((i : Int), (i : Int))

/-- `load_mapping` (lines 84-95): if the file exists and parses, take
`{int(k): int(v) for k, v in data.items()}` as-is; on a missing file or any
exception fall back to the identity map. -/
def load_mapping : MapFile → List (Int × Int)
  | .missing => identityMap
  | .malformed => identityMap
  | .parsed d => d.map fun p => (decodeKey p.1, p.2)

/-- `save_mapping` (lines 98-104) on the success path: `json.dump(track_map)`
writes the whole map, converting each integer key to its decimal string.  (A
write failure only prints a warning and leaves no file content to model.) -/
def save_mapping_file (m : List (Int × Int)) : MapFile :=
  .parsed (m.map fun p => (encodeKey p.1, p.2))

/-- Stated invariant of the spec's ChannelMap data model: every track index in
`0..NUM_TRACKS-1` has an entry and every stored value lies in
`[0, NUM_OUT-1]`. -/
def mapInvariant (m : List (Int × Int)) : Bool :=
  (List.range NUM_TRACKS).all fun i =>
    match m.lookup (i : Int) with
    | some v => decide (0 ≤ v) && decide (v < (NUM_OUT : Int))
    | none => false

/-- Substring containment on character lists: Python's `sub in s`. -/
def listHasSub : List Char → List Char → Bool
  | [], sub => sub.isEmpty
  | c :: rest, sub => sub.isPrefixOf (c :: rest) || listHasSub rest sub

/-- Python `"sub" in s` for strings. -/
def strHasSub (s sub : String) : Bool := listHasSub s.data sub.data

/-- Python `s.startswith(pre)`. -/
def strStartsWith (s pre : String) : Bool := pre.data.isPrefixOf s.data

/-- `open_all_midi_outputs` (lines 107-117): keep the enumerated port names
that contain `"MIDI"` and do not start with `"Midi Through"`, then open each
one, silently skipping the ones whose `mido.open_output` raises.  `openOk`
tells which individual ports open successfully; the result is the list of
ports actually opened, in enumeration order. -/
def open_all_midi_outputs (names : List String) (openOk : String → Bool) : List String :=
  let valid := names.filter fun n => strHasSub n "MIDI" && !(strStartsWith n "Midi Through")
  valid.filter openOk

/-- The host environment the module reads from: the enumerated MIDI output
port names (`mido.get_output_names()`), which of them open successfully,
parsed MIDI file contents by path (`mido.MidiFile(path)`), the result of
walking the music directories for the current mode (`scan_files`), and the
persisted map file found at startup. -/
structure Env where
  output_names : List String
  openOk : String → Bool
  readFile : String → MidiFile
  scanRaw : String → List String × List String
  map_file : MapFile

/-- The module-level globals of `midiplayer.py` (lines 58-75) that the claims
are about, as one record.  `midi_thread` holds when a live dispatch thread
exists; `audio_proc` holds when an `mpg123` subprocess is running;
`saved_file` models the persisted `MAP_FILE` content.  The wall-clock field
`playback_start` (a `time.perf_counter()` timestamp) and the animation
parameters are omitted: no claim mentions them. -/
structure PlayerState where
  operation_mode : String
  selected_index : Int
  files : List String
  paths : List String
  audio_proc : Bool
  in_edit : Bool
  track_map : List (Int × Int)
  stop_flag : Bool
  midi_thread : Bool
  playback_active : Bool
  playback_events : List Entry
  playback_duration : ℚ
  midi_outputs : List String
  saved_file : MapFile

/-- The effect of `stop_flag.set(); midi_thread.join()` on the state: if a
live dispatch thread exists, it observes the flag, breaks out of its loop,
closes all outputs and clears `playback_active` (lines 147-148 of the worker)
before `join` returns; otherwise nothing happens. -/
def join_midi_thread (s : PlayerState) : PlayerState :=
  if s.midi_thread then
    { s with midi_outputs := [], playback_active := false, midi_thread := false }
  else s

/-- `close_all_midi_outputs` (lines 120-126): close every open port
(swallowing individual close errors) and clear the list. -/
def close_all_midi_outputs (s : PlayerState) : PlayerState := { s with midi_outputs := [] }

/-- `stop_all_playback` (lines 182-194): signal and join the MIDI thread,
close all outputs, clear `playback_active`, and terminate the `mpg123`
subprocess if one is running. -/
def stop_all_playback (s : PlayerState) : PlayerState :=
  let s1 := join_midi_thread { s with stop_flag := true }
  let s2 := close_all_midi_outputs s1
  let s3 := { s2 with playback_active := false }
  { s3 with audio_proc := false }

/-- `play_midi_file` (lines 151-179): signal and join any previous MIDI
thread, clear the flag, parse the file, build and stable-sort the event list,
compute the duration with the fixed 500000 µs/beat tempo, open the outputs and
start a new dispatch thread.  Note that the running `mpg123` subprocess, if
any, is left untouched. -/
def play_midi_file (env : Env) (path : String) (s : PlayerState) : PlayerState :=
  let s1 := join_midi_thread { s with stop_flag := true }
  let s2 := { s1 with stop_flag := false }
  let mid := env.readFile path
  let events := playMidiTimeline mid.tracks
  { s2 with
    playback_events := events,
    playback_duration := tick2second (lastTick events) mid.ticks_per_beat 500000,
    midi_outputs := open_all_midi_outputs env.output_names env.openOk,
    playback_active := true,
    midi_thread := true }

/-- `play_audio_file` (lines 197-203): stop all playback of either kind, then
launch `mpg123` on the file. -/
def play_audio_file (s : PlayerState) : PlayerState :=
  { stop_all_playback s with audio_proc := true }

/-- `scan_files` (lines 206-218): repopulate `files`/`paths` from the music
directory of the current mode (the directory walk is `env.scanRaw`), falling
back to a single `"<Empty>"` placeholder row when nothing was found. -/
def scan_files (env : Env) (s : PlayerState) : PlayerState :=
  let fp := env.scanRaw s.operation_mode
  if fp.1.isEmpty then { s with files := ["<Empty>"], paths := [""] }
  else { s with files := fp.1, paths := fp.2 }

/-- `save_mapping` as invoked from the button handler, on the success path:
overwrite the persisted file with the current map. -/
def save_mapping (s : PlayerState) : PlayerState :=
  { s with saved_file := save_mapping_file s.track_map }

/-- `handle_button` (lines 221-270).  `pin` is the BCM pin number of the
pressed button.  In the setup-edit branch the source evaluates
`track_map[selected_index]`, which raises `KeyError` when the key is absent;
the embedding uses default `0` there, and the theorems about this branch
assume the key is present. -/
def handle_button (env : Env) (pin : Nat) (s : PlayerState) : PlayerState :=
  if s.operation_mode == "SETUP" then
    if s.in_edit then
      if pin == BTN_UP then
        { s with
          track_map := dictSet s.track_map s.selected_index
            (max 0 (dictGet s.track_map s.selected_index 0 - 1)) }
      else if pin == BTN_DOWN then
        { s with
          track_map := dictSet s.track_map s.selected_index
            (min ((NUM_OUT : Int) - 1) (dictGet s.track_map s.selected_index 0 + 1)) }
      else if pin == BTN_SELECT then
        save_mapping { s with in_edit := false }
      else s
    else
      if pin == BTN_UP then
        { s with selected_index := (s.selected_index - 1) % (NUM_TRACKS : Int) }
      else if pin == BTN_DOWN then
        { s with selected_index := (s.selected_index + 1) % (NUM_TRACKS : Int) }
      else if pin == BTN_SELECT then { s with in_edit := true }
      else if pin == BTN_RESET then
        { s with operation_mode := "main screen", selected_index := 0 }
      else s
  else
    if pin == BTN_UP then { s with selected_index := max (s.selected_index - 1) 0 }
    else if pin == BTN_DOWN then
      let limit : Int :=
        if s.operation_mode != "main screen" then (s.files.length : Int)
        else (MODE_LIST.length : Int)
      { s with selected_index := min (s.selected_index + 1) (limit - 1) }
    else if pin == BTN_RESET then
      scan_files env
        { stop_all_playback s with operation_mode := "main screen", selected_index := 0 }
    else if pin == BTN_SELECT then
      if s.operation_mode == "main screen" then
        let sel := MODE_LIST.getD s.selected_index.toNat ""
        if sel == "SETUP" then { s with operation_mode := "SETUP", selected_index := 0 }
        else scan_files env { s with operation_mode := sel, selected_index := 0 }
      else if s.operation_mode == "MIDI FILE" then
        let p := s.paths.getD s.selected_index.toNat ""
        if p != "" then play_midi_file env p s else s
      else if s.operation_mode == "AUDIO FILE" then
        let p := s.paths.getD s.selected_index.toNat ""
        if p != "" then play_audio_file s else s
      else s
    else s

/-- The state `main()` starts the UI loop in: fresh globals, then
`load_mapping()` and `scan_files()` (lines 290-292). -/
def initState (env : Env) : PlayerState :=
  scan_files env
    { operation_mode := "main screen", selected_index := 0, files := [], paths := [],
      audio_proc := false, in_edit := false, track_map := load_mapping env.map_file,
      stop_flag := false, midi_thread := false, playback_active := false,
      playback_events := [], playback_duration := 0, midi_outputs := [],
      saved_file := env.map_file }

/-- The states reachable from startup through the module's operations: button
presses (which subsume starting MIDI/MP3 playback from the file lists) and the
playback-control calls themselves. -/
inductive Reachable (env : Env) : PlayerState → Prop
  | init : Reachable env (initState env)
  | button {s} (pin : Nat) : Reachable env s → Reachable env (handle_button env pin s)
  | midi {s} (path : String) : Reachable env s → Reachable env (play_midi_file env path s)
  | audio {s} : Reachable env s → Reachable env (play_audio_file s)
  | stop {s} : Reachable env s → Reachable env (stop_all_playback s)

/-- The observable playback state the spec's idempotence property talks
about: is playback active, how many sinks are open, is a decoder process
running. -/
def observable (s : PlayerState) : Bool × Nat × Bool :=
  (s.playback_active, s.midi_outputs.length, s.audio_proc)

/-- A concrete environment for witnesses and counterexamples: one output
port, every port opens, every path parses to a one-track one-note file. -/
def demoEnv : Env where
  output_names := ["USB MIDI Out"]
  openOk := fun _ => true
  readFile := fun _ => { tracks := [[⟨480, false, 7⟩]], ticks_per_beat := 480 }
  scanRaw := fun _ => (["a.mid"], ["/music/a.mid"])
  map_file := .missing

/-- A concrete idle state (nothing playing, no sinks, no decoder). -/
def idleDemoState : PlayerState where
  operation_mode := "main screen"
  selected_index := 0
  files := ["a.mid"]
  paths := ["/music/a.mid"]
  audio_proc := false
  in_edit := false
  track_map := identityMap
  stop_flag := false
  midi_thread := false
  playback_active := false
  playback_events := []
  playback_duration := 0
  midi_outputs := []
  saved_file := .missing

/-- A concrete one-track file: a single non-meta message 480 ticks in. -/
def demoTracks : List (List MidiMsg) := [[⟨480, false, 7⟩]]

/-- A concrete state sitting in the setup-edit screen with track 0 selected
and mapped to channel 5. -/
def demoSetupState : PlayerState :=
  { idleDemoState with
    operation_mode := "SETUP",
    in_edit := true,
    track_map := [(0, 5)] }

/-! ## Helper lemmas -/

/-- After `dictSet m k v`, looking up `k` yields `v`. -/
theorem lookup_dictSet_self (m : List (Int × Int)) (k v : Int) :
    (dictSet m k v).lookup k = some v := by
  induction m with
  | nil => simp [dictSet, List.lookup]
  | cons p rest ih =>
    by_cases h : p.1 = k
    · simp [dictSet, h, List.lookup]
    · have hb : (p.1 == k) = false := beq_eq_false_iff_ne.mpr h
      simpa [dictSet, hb, List.lookup, beq_eq_false_iff_ne.mpr (Ne.symm h)] using ih

/-- `dictSet m k v` leaves the binding of every other key unchanged. -/
theorem lookup_dictSet_ne (m : List (Int × Int)) (k v k' : Int) (h : k' ≠ k) :
    (dictSet m k v).lookup k' = m.lookup k' := by
  induction m with
  | nil => simp [dictSet, List.lookup, beq_eq_false_iff_ne.mpr h]
  | cons p rest ih =>
    by_cases hp : p.1 = k
    · subst hp
      simp [dictSet, List.lookup, beq_eq_false_iff_ne.mpr h]
    · have hb : (p.1 == k) = false := beq_eq_false_iff_ne.mpr hp
      by_cases hk' : k' = p.1
      · subst hk'
        simp [dictSet, hb, List.lookup]
      · simpa [dictSet, hb, List.lookup, beq_eq_false_iff_ne.mpr hk'] using ih

/-- Decoding a decimal key produced by encoding gives back the integer
(`int(str(i)) == i`). -/
theorem decodeKey_encodeKey (i : Int) : decodeKey (encodeKey i) = i := by
  simp only [decodeKey, encodeKey, Nat.ofDigits_digits]
  split <;> rename_i h <;> simp only [decide_eq_true_eq, Bool.not_eq_true] at h <;> omega

/-- `stop_all_playback` always ends in the idle observable state. -/
theorem observable_stop_all_playback (s : PlayerState) :
    observable (stop_all_playback s) = (false, 0, false) := by
  by_cases hmt : s.midi_thread <;>
    simp [stop_all_playback, close_all_midi_outputs, join_midi_thread, observable, hmt]

/-! ## Claims -/

/-- C4: channel routing is total and in range.  For every integer track index
and every channel map, `route` returns the stored value modulo `NUM_OUT` when
the key is present, the track index modulo `NUM_OUT` when it is absent, and
in either case a value in `[0, NUM_OUT - 1]`. -/
theorem C4_route_total (t : Int) (m : List (Int × Int)) :
    (∀ v, m.lookup t = some v → route t m = v % (NUM_OUT : Int))
      ∧ (m.lookup t = none → route t m = t % (NUM_OUT : Int))
      ∧ 0 ≤ route t m ∧ route t m < (NUM_OUT : Int) := by
  refine ⟨fun v hv => ?_, fun hv => ?_, ?_, ?_⟩
  · simp [route, dictGet, hv]
  · simp [route, dictGet, hv]
  · exact Int.emod_nonneg _ (by decide)
  · exact Int.emod_lt_of_pos _ (by decide)

/-- Witness for C4 at the synthetic negative track index `-5` with a map that
does not contain it: the fallback branch fires and yields `-5 % 16 = 11`. -/
theorem C4_route_total_witness :
    route (-5) [((3 : Int), (20 : Int))] = (-5) % (NUM_OUT : Int)
      ∧ (0 : Int) ≤ route (-5) [((3 : Int), (20 : Int))]
      ∧ route (-5) [((3 : Int), (20 : Int))] = 11 :=
  ⟨(C4_route_total (-5) [((3 : Int), (20 : Int))]).2.1 (by decide),
   (C4_route_total (-5) [((3 : Int), (20 : Int))]).2.2.1, by decide⟩

/-- C5 counterexample: the file `{"0": 99}` parses successfully, and
`load_mapping` then takes it as-is, so the resulting map has no entry for
track 1 and stores the out-of-range value 99 for track 0 — the claimed
invariant (every index in `0..NUM_TRACKS-1` present, all values in
`[0, NUM_OUT-1]`) fails. -/
theorem C5_counterexample :
    load_mapping (MapFile.parsed [(⟨false, [0]⟩, 99)]) = [((0 : Int), (99 : Int))]
      ∧ (load_mapping (MapFile.parsed [(⟨false, [0]⟩, 99)])).lookup (1 : Int) = none
      ∧ mapInvariant (load_mapping (MapFile.parsed [(⟨false, [0]⟩, 99)])) = false := by
  decide

/-- C5 amended: only the fallback cases establish the invariant.  When the
file is missing or fails to parse, `load_mapping` yields the identity map,
which has an entry for every track index in `0..NUM_TRACKS-1` with its value
in `[0, NUM_OUT-1]`; when the file parses, the stored entries are taken
as-is, with no per-index completion and no clamping. -/
theorem C5_load_fallback :
    load_mapping MapFile.missing = identityMap
      ∧ load_mapping MapFile.malformed = identityMap
      ∧ mapInvariant identityMap = true
      ∧ ∀ d, load_mapping (MapFile.parsed d) = d.map fun p => (decodeKey p.1, p.2) :=
  ⟨rfl, rfl, by decide, fun _ => rfl⟩

/-- C6 counterexample: the port `"Synth Port"` does not start with the
loopback prefix `"Midi Through"`, yet `open_all_midi_outputs` does not open
it, because the source additionally requires the name to contain `"MIDI"` —
so the prefix rule is not the only name-based filter. -/
theorem C6_counterexample :
    open_all_midi_outputs ["Synth Port"] (fun _ => true) = []
      ∧ strStartsWith "Synth Port" "Midi Through" = false := by
  decide

/-- C6 amended: `open_all_midi_outputs` opens exactly the enumerated ports
whose name contains `"MIDI"` as a substring and does not start with
`"Midi Through"`, best-effort over the individual ports that open
successfully. -/
theorem C6_open_characterization (names : List String) (ok : String → Bool) (n : String) :
    n ∈ open_all_midi_outputs names ok
      ↔ n ∈ names ∧ strHasSub n "MIDI" = true
          ∧ strStartsWith n "Midi Through" = false ∧ ok n = true := by
  simp only [open_all_midi_outputs, List.mem_filter, Bool.and_eq_true, Bool.not_eq_true']
  tauto

/-- C8: `stop_all_playback` is idempotent on the observable playback state
(playback inactive, zero open sinks, no decoder process), and it is a no-op
on that observable state when nothing is playing. -/
theorem C8_stop_idempotent (s : PlayerState) :
    observable (stop_all_playback (stop_all_playback s)) = observable (stop_all_playback s)
      ∧ (observable s = (false, 0, false) → observable (stop_all_playback s) = observable s) :=
  ⟨(observable_stop_all_playback _).trans (observable_stop_all_playback _).symm,
   fun hidle => (observable_stop_all_playback s).trans hidle.symm⟩

/-- Witness for C8 at a concrete idle state: stopping when nothing is playing
leaves the observable state unchanged. -/
theorem C8_stop_idempotent_witness :
    observable (stop_all_playback idleDemoState) = observable idleDemoState :=
  (C8_stop_idempotent idleDemoState).2 rfl

/-- C9: persistence round-trip.  Saving any integer channel map (keys
serialized as decimal strings by `json.dump`) and loading it back (keys
converted with `int`) yields the map that was saved. -/
theorem C9_save_load_roundtrip (m : List (Int × Int)) :
    load_mapping (save_mapping_file m) = m := by
  simp only [load_mapping, save_mapping_file, List.map_map]
  induction m with
  | nil => rfl
  | cons p rest ih =>
    simp only [List.map_cons, Function.comp_apply] at ih ⊢
    rw [decodeKey_encodeKey, ih]

/-- C2 counterexample: start an MP3 from the initial state, then start MIDI
playback.  The resulting state is reachable, its MIDI dispatch is active, and
the decoder process is still running — `play_midi_file` joins a previous MIDI
thread but never terminates `audio_proc`, so the two can be active at once. -/
theorem C2_counterexample :
    Reachable demoEnv
        (play_midi_file demoEnv "/music/a.mid" (play_audio_file (initState demoEnv)))
      ∧ (play_midi_file demoEnv "/music/a.mid"
          (play_audio_file (initState demoEnv))).playback_active = true
      ∧ (play_midi_file demoEnv "/music/a.mid"
          (play_audio_file (initState demoEnv))).midi_thread = true
      ∧ (play_midi_file demoEnv "/music/a.mid"
          (play_audio_file (initState demoEnv))).audio_proc = true :=
  ⟨Reachable.midi "/music/a.mid" (Reachable.audio Reachable.init), rfl, rfl, rfl⟩

/-- The tick comparison is transitive. -/
theorem entryLE_trans (a b c : Entry) : entryLE a b → entryLE b c → entryLE a c := by
  simp only [entryLE, decide_eq_true_eq]
  omega

/-- The tick comparison is total. -/
theorem entryLE_total (a b : Entry) : entryLE a b || entryLE b a := by
  simp only [entryLE, Bool.or_eq_true, decide_eq_true_eq]
  omega

/-- C1: the built timeline is sorted non-decreasingly by absolute tick, and
for every tick value the entries carrying it appear in exactly the order of
the per-track concatenation (track index ascending, then original intra-track
order) — the characterization of a stable sort by the tick key alone. -/
theorem C1_timeline_sorted_stable (tracks : List (List MidiMsg)) :
    List.Pairwise (fun a b : Entry => a.1 ≤ b.1) (playMidiTimeline tracks)
      ∧ List.Perm (playMidiTimeline tracks) (buildEvents tracks)
      ∧ ∀ k : Nat,
          (playMidiTimeline tracks).filter (fun e => e.1 == k)
            = (buildEvents tracks).filter (fun e => e.1 == k) := by
  refine ⟨?_, List.mergeSort_perm _ _, ?_⟩
  · have h := List.sorted_mergeSort entryLE_trans entryLE_total (buildEvents tracks)
    exact h.imp fun hab => by simpa [entryLE] using hab
  · intro k
    set l := buildEvents tracks with hl
    set p : Entry → Bool := fun e => e.1 == k with hp
    have hsub : List.Sublist (l.filter p) l := List.filter_sublist l
    have hpw : (l.filter p).Pairwise fun a b => entryLE a b := by
      apply List.pairwise_of_forall_mem_list
      intro a ha b hb
      have ha' : a.1 = k := by simpa [hp] using (List.mem_filter.mp ha).2
      have hb' : b.1 = k := by simpa [hp] using (List.mem_filter.mp hb).2
      simp [entryLE, ha', hb']
    have h1 : List.Sublist (l.filter p) (l.mergeSort entryLE) :=
      List.sublist_mergeSort entryLE_trans entryLE_total hpw hsub
    have h2 : List.Sublist ((l.filter p).filter p) ((l.mergeSort entryLE).filter p) :=
      List.Sublist.filter p h1
    have hid : (l.filter p).filter p = l.filter p :=
      List.filter_eq_self.mpr fun a ha => (List.mem_filter.mp ha).2
    rw [hid] at h2
    have hperm : List.Perm ((l.mergeSort entryLE).filter p) (l.filter p) :=
      (List.mergeSort_perm l entryLE).filter p
    exact (h2.eq_of_length hperm.length_eq.symm).symm

/-- Every non-meta message of a track appears in its track's event list with
the accumulated delta-tick (starting from `acc`) as its absolute tick. -/
theorem mem_trackEvents_of_nonMeta (idx : Nat) (msgs : List MidiMsg) (acc i : Nat)
    (hi : i < msgs.length) (hm : (msgs.get ⟨i, hi⟩).is_meta = false) :
    (acc + sumDeltas (msgs.take (i + 1)), idx, msgs.get ⟨i, hi⟩)
      ∈ trackEvents idx acc msgs := by
  induction msgs generalizing acc i with
  | nil => simp at hi
  | cons m rest ih =>
    cases i with
    | zero =>
      have hm0 : m.is_meta = false := hm
      simp [trackEvents, hm0, sumDeltas]
    | succ j =>
      have hj : j < rest.length := by simpa using hi
      have hm' : (rest.get ⟨j, hj⟩).is_meta = false := hm
      have hmem := ih (acc + m.time) j hj hm'
      have harith : acc + sumDeltas ((m :: rest).take (j + 1 + 1))
          = acc + m.time + sumDeltas (rest.take (j + 1)) := by
        simp [sumDeltas]
        omega
      have hget : (m :: rest).get ⟨j + 1, hi⟩ = rest.get ⟨j, hj⟩ := rfl
      rw [hget, harith]
      cases hmm : m.is_meta
      · simp only [trackEvents, hmm, Bool.false_eq_true, if_false]
        exact List.mem_cons_of_mem _ hmem
      · simpa only [trackEvents, hmm, if_true] using hmem

/-- The accumulator loop of the source computes exactly the spec's closed
form: each non-meta event is tagged with `acc` plus the sum of the
delta-ticks up to and including it. -/
theorem trackEvents_eq_spec (t : Nat) (msgs : List MidiMsg) (acc : Nat) :
    trackEvents t acc msgs
      = (msgs.enum.filter fun p => !p.2.is_meta).map
          fun p => (acc + sumDeltas (msgs.take (p.1 + 1)), t, p.2) := by
  induction msgs generalizing acc with
  | nil => rfl
  | cons m rest ih =>
    rw [List.enum_cons']
    cases hmm : m.is_meta
    · rw [List.filter_cons_of_pos (by simp [hmm])]
      rw [List.filter_map, List.map_cons, List.map_map]
      simp only [trackEvents, hmm, Bool.false_eq_true, if_false]
      refine List.cons_eq_cons.mpr ⟨by simp [sumDeltas], ?_⟩
      rw [ih (acc + m.time)]
      have hq : ((fun p : Nat × MidiMsg => !p.2.is_meta) ∘ Prod.map (· + 1) id)
          = fun p : Nat × MidiMsg => !p.2.is_meta := by
        funext p
        simp [Prod.map]
      rw [hq]
      apply List.map_congr_left
      intro p hp
      simp only [Function.comp_apply, Prod.map, id]
      simp [sumDeltas]
      omega
    · rw [List.filter_cons_of_neg (by simp [hmm])]
      rw [List.filter_map, List.map_map]
      simp only [trackEvents, hmm, if_true]
      rw [ih (acc + m.time)]
      have hq : ((fun p : Nat × MidiMsg => !p.2.is_meta) ∘ Prod.map (· + 1) id)
          = fun p : Nat × MidiMsg => !p.2.is_meta := by
        funext p
        simp [Prod.map]
      rw [hq]
      apply List.map_congr_left
      intro p hp
      simp only [Function.comp_apply, Prod.map, id]
      simp [sumDeltas]
      omega

/-- Membership in one track's event list gives membership in the full
per-track concatenation. -/
theorem mem_buildEvents_of_track (tracks : List (List MidiMsg)) (t : Nat)
    (ht : t < tracks.length) {e : Entry}
    (he : e ∈ trackEvents t 0 (tracks.get ⟨t, ht⟩)) : e ∈ buildEvents tracks := by
  unfold buildEvents
  rw [List.mem_flatten]
  refine ⟨trackEvents t 0 (tracks.get ⟨t, ht⟩), ?_, he⟩
  rw [List.mem_map]
  refine ⟨(t, tracks.get ⟨t, ht⟩), ?_, rfl⟩
  have hlen : t < tracks.enum.length := by simpa [List.enum_length] using ht
  have hg : tracks.enum.get ⟨t, hlen⟩ = (t, tracks.get ⟨t, ht⟩) := by
    simp [List.getElem_enum]
  rw [← hg]
  exact List.get_mem _ _ _

/-- C3: for every file, every track and every non-meta event of that track,
the built timeline contains an entry for that event whose absolute tick is
the sum of the delta-ticks of all the track's events up to and including it
(meta events are excluded from the timeline, but their delta-ticks still
advance the accumulator, being part of that sum). -/
theorem C3_abs_tick (tracks : List (List MidiMsg)) (t i : Nat)
    (ht : t < tracks.length) (hi : i < (tracks.get ⟨t, ht⟩).length)
    (hm : ((tracks.get ⟨t, ht⟩).get ⟨i, hi⟩).is_meta = false) :
    ((sumDeltas ((tracks.get ⟨t, ht⟩).take (i + 1)), t, (tracks.get ⟨t, ht⟩).get ⟨i, hi⟩)
        ∈ playMidiTimeline tracks)
      ∧ ∀ (t' : Nat) (msgs : List MidiMsg),
          trackEvents t' 0 msgs = specTrackEntries t' msgs := by
  constructor
  · rw [playMidiTimeline, sortEvents, List.mem_mergeSort]
    have h := mem_trackEvents_of_nonMeta t (tracks.get ⟨t, ht⟩) 0 i hi hm
    exact mem_buildEvents_of_track tracks t ht (by simpa using h)
  · intro t' msgs
    rw [trackEvents_eq_spec, specTrackEntries]
    simp

/-- Witness for C3 on the one-track demo file: its single event, with
delta-tick 480, appears in the timeline at absolute tick 480. -/
theorem C3_abs_tick_witness :
    ((480 : Nat), (0 : Nat), (⟨480, false, 7⟩ : MidiMsg)) ∈ playMidiTimeline demoTracks := by
  have h := (C3_abs_tick demoTracks 0 0 (by decide) (by decide) (by decide)).1
  simpa [demoTracks, sumDeltas] using h

/-- C7: the duration is the final entry's absolute tick (0 when the timeline
is empty) converted with the fixed constant of 500000 microseconds per
quarter note — explicitly `last_tick * 500000 / (tpq * 1000000)` — so a file
whose last timeline entry sits at tick 480 has, at `tpq = 480`, a duration of
exactly 1/2 second; and an actual tempo-change meta message in the file (a
meta message, not contributing delta time) leaves the duration unchanged. -/
theorem C7_duration_formula (tracks : List (List MidiMsg)) (tpq : Nat) :
    playback_duration_of tracks tpq
        = ((lastTick (playMidiTimeline tracks) : ℚ) * 500000) / ((tpq : ℚ) * 1000000)
      ∧ (playMidiTimeline tracks = [] → playback_duration_of tracks tpq = 0)
      ∧ (lastTick (playMidiTimeline tracks) = 480 →
          playback_duration_of tracks 480 = 1 / 2)
      ∧ ∀ m : MidiMsg, m.is_meta = true → m.time = 0 →
          ∀ tr rest, playback_duration_of ((m :: tr) :: rest) tpq
            = playback_duration_of (tr :: rest) tpq := by
  refine ⟨?_, ?_, ?_, ?_⟩
  · rw [playback_duration_of, tick2second, div_div]
    ring
  · intro hempty
    simp [playback_duration_of, hempty, lastTick, tick2second]
  · intro h480
    rw [playback_duration_of, h480]
    norm_num [tick2second]
  · intro m hmeta htime tr rest
    have hbe : buildEvents ((m :: tr) :: rest) = buildEvents (tr :: rest) := by
      simp [buildEvents, trackEvents, hmeta, htime, List.enum_cons, List.enumFrom_cons]
    simp [playback_duration_of, playMidiTimeline, sortEvents, hbe]

/-- Witness for C7 on the one-track demo file: its last timeline entry is at
tick 480 and the computed duration at `tpq = 480` is exactly 1/2 second. -/
theorem C7_duration_formula_witness :
    playback_duration_of demoTracks 480 = 1 / 2 := by
  apply (C7_duration_formula demoTracks 480).2.2.1
  have htl : playMidiTimeline demoTracks = [(480, 0, ⟨480, false, 7⟩)] := by
    simp [playMidiTimeline, sortEvents, buildEvents, demoTracks, trackEvents]
  rw [htl]
  rfl

/-- C10: in the setup-edit screen, a single increment or decrement press
updates only the selected track's entry, moving it one step down (clamped at
0) or one step up (clamped at `NUM_OUT - 1`); every other track's binding and
every other component of the state — including the persisted file — is left
unchanged. -/
theorem C10_edit_step (env : Env) (pin : Nat) (s : PlayerState) (v : Int)
    (hmode : s.operation_mode = "SETUP") (hedit : s.in_edit = true)
    (hpin : pin = BTN_UP ∨ pin = BTN_DOWN)
    (hv : s.track_map.lookup s.selected_index = some v) :
    ((handle_button env pin s).track_map.lookup s.selected_index
        = some (if pin = BTN_UP then max 0 (v - 1) else min ((NUM_OUT : Int) - 1) (v + 1)))
      ∧ (∀ k, k ≠ s.selected_index →
          (handle_button env pin s).track_map.lookup k = s.track_map.lookup k)
      ∧ (0 : Int) ≤ max 0 (v - 1)
      ∧ (0 < v → max 0 (v - 1) = v - 1)
      ∧ min ((NUM_OUT : Int) - 1) (v + 1) ≤ (NUM_OUT : Int) - 1
      ∧ (v < (NUM_OUT : Int) - 1 → min ((NUM_OUT : Int) - 1) (v + 1) = v + 1)
      ∧ (handle_button env pin s).operation_mode = s.operation_mode
      ∧ (handle_button env pin s).selected_index = s.selected_index
      ∧ (handle_button env pin s).in_edit = s.in_edit
      ∧ (handle_button env pin s).saved_file = s.saved_file
      ∧ (handle_button env pin s).files = s.files
      ∧ (handle_button env pin s).paths = s.paths
      ∧ (handle_button env pin s).audio_proc = s.audio_proc
      ∧ (handle_button env pin s).stop_flag = s.stop_flag
      ∧ (handle_button env pin s).midi_thread = s.midi_thread
      ∧ (handle_button env pin s).playback_active = s.playback_active
      ∧ (handle_button env pin s).playback_events = s.playback_events
      ∧ (handle_button env pin s).playback_duration = s.playback_duration
      ∧ (handle_button env pin s).midi_outputs = s.midi_outputs := by
  have hstate : handle_button env pin s
      = { s with
          track_map := dictSet s.track_map s.selected_index
            (if pin = BTN_UP then max 0 (v - 1)
             else min ((NUM_OUT : Int) - 1) (v + 1)) } := by
    rcases hpin with h | h <;> subst h <;>
      simp [handle_button, hmode, hedit, dictGet, hv,
        show (BTN_DOWN == BTN_UP) = false from rfl,
        show ¬(BTN_DOWN = BTN_UP) from by decide]
  rw [hstate]
  refine ⟨lookup_dictSet_self _ _ _, fun k hk => lookup_dictSet_ne _ _ _ _ hk,
    le_max_left _ _, fun h0 => max_eq_right (by omega),
    min_le_left _ _, fun hlt => min_eq_right (by omega),
    rfl, rfl, rfl, rfl, rfl, rfl, rfl, rfl, rfl, rfl, rfl, rfl, rfl⟩

/-- Witness for C10: in the concrete setup-edit state with track 0 mapped to
channel 5, a decrement press moves the entry to 4. -/
theorem C10_edit_step_witness :
    (handle_button demoEnv BTN_UP demoSetupState).track_map.lookup
        demoSetupState.selected_index = some (4 : Int) := by
  have h := (C10_edit_step demoEnv BTN_UP demoSetupState 5 rfl rfl (Or.inl rfl)
    (by decide)).1
  simpa using h

/-- C2 amended: `play_audio_file` does stop any existing session of either
kind before launching the decoder (MIDI dispatch inactive, thread joined, all
sinks closed), but `play_midi_file` leaves a running decoder process exactly
as it found it, so mutual exclusion only holds in the audio direction. -/
theorem C2_mutual_exclusion_amended (s : PlayerState) (env : Env) (path : String) :
    (play_audio_file s).playback_active = false
      ∧ (play_audio_file s).midi_thread = false
      ∧ (play_audio_file s).midi_outputs = []
      ∧ (play_audio_file s).audio_proc = true
      ∧ (play_midi_file env path s).audio_proc = s.audio_proc := by
  by_cases hmt : s.midi_thread <;>
    simp [play_audio_file, play_midi_file, stop_all_playback, close_all_midi_outputs,
      join_midi_thread, hmt]

end MidiPlayer
